import Mathlib

/-!
Verification development for the SciTokens library public contract
(`src/scitokens.h`).  The repository ships only the public C header; the
implementation behind it is modelled here from the specification document,
as a shallow embedding: claim sets are association lists, timestamps are
integers, and the external collaborators (JSON codec, crypto primitives,
network fetch) are abstracted exactly at the interface boundary the spec
draws for them.
-/

namespace SciTokens

/-- Token profiles, from the `_profile` enum in `src/scitokens.h`
(COMPAT, SCITOKENS_1_0, SCITOKENS_2_0, WLCG_1_0, AT_JWT). -/
inductive SciTokenProfile where
  | COMPAT
  | SCITOKENS_1_0
  | SCITOKENS_2_0
  | WLCG_1_0
  | AT_JWT
deriving DecidableEq, Repr

/-- Modelled from the spec: error taxonomy of section 7.  `ValidationError`
stands for the spec's generic "failure sets err_msg and returns nonzero"
outcome of a caller-registered check, for which the taxonomy has no
dedicated kind. -/
inductive SciTokenError where
  | KeyFormatError
  | ClaimTypeError
  | ClaimMissingError
  | ParseError
  | UnknownProfileError
  | IssuerNotAllowedError
  | MalformedScopeError
  | SigningError
  | ProfileEncodingError
  | SignatureInvalidError
  | ExpiredTokenError
  | NotYetValidError
  | KeyNotFoundError
  | AudienceMismatchError
  | CacheIOError
  | ValidationError
deriving DecidableEq, Repr

/-- Modelled from the spec: JSON-typed claim values (string, string-list,
number) as delivered by the external JSON codec collaborator. -/
inductive Value where
  | str : String → Value
  | strList : List String → Value
  | num : Int → Value
deriving DecidableEq, Repr

/-- Modelled from the spec: a ClaimSet is an ordered mapping from claim
name to JSON-typed value; keys are case-sensitive and unique. -/
abbrev ClaimSet := List (String × Value)

/-- Look a claim up by name in a claim set. -/
def lookupClaim : ClaimSet → String → Option Value
  | [], _ => none
  | (k, v) :: rest, key => if k = key then some v else lookupClaim rest key

/-- Set a claim: replace the existing binding in place (preserving claim
order) or append a fresh one. -/
def setClaim : ClaimSet → String → Value → ClaimSet
  | [], key, v => [(key, v)]
  | (k, w) :: rest, key, v =>
    if k = key then (key, v) :: rest else (k, w) :: setClaim rest key v

theorem lookupClaim_setClaim_self (cs : ClaimSet) (key : String) (v : Value) :
    lookupClaim (setClaim cs key v) key = some v := by
  induction cs with
  | nil => simp [setClaim, lookupClaim]
  | cons p rest ih =>
    rcases p with ⟨k, w⟩
    by_cases hk : k = key
    · simp [setClaim, lookupClaim, hk]
    · simp [setClaim, lookupClaim, hk, ih]

theorem lookupClaim_setClaim_other (cs : ClaimSet) (key other : String) (v : Value)
    (hne : other ≠ key) :
    lookupClaim (setClaim cs key v) other = lookupClaim cs other := by
  induction cs with
  | nil =>
    simp only [setClaim, lookupClaim]
    rw [if_neg (fun h => hne h.symm)]
  | cons p rest ih =>
    rcases p with ⟨k, w⟩
    by_cases hk : k = key
    · subst hk
      simp only [setClaim, if_pos rfl, lookupClaim]
      rw [if_neg (fun h => hne h.symm), if_neg (fun h => hne h.symm)]
    · simp only [setClaim, if_neg hk, lookupClaim]
      by_cases hko : k = other
      · simp [hko]
      · rw [if_neg hko, if_neg hko, ih]

theorem setClaim_eq_self (cs : ClaimSet) (key : String) (v : Value)
    (h : lookupClaim cs key = some v) : setClaim cs key v = cs := by
  induction cs with
  | nil => simp [lookupClaim] at h
  | cons p rest ih =>
    rcases p with ⟨k, w⟩
    simp only [lookupClaim] at h
    by_cases hk : k = key
    · rw [if_pos hk] at h
      simp only [setClaim, if_pos hk]
      simp only [Option.some.injEq] at h
      rw [← hk, h]
    · rw [if_neg hk] at h
      simp only [setClaim, if_neg hk]
      rw [ih h]

/-! ### Key cache (spec section 4.5) -/

/-- Modelled from the spec: a single public verification key inside a JWKS
document (key id, algorithm, opaque public material). -/
structure Jwk where
  kid : String
  alg : String
  material : String
deriving DecidableEq, Repr

/-- A JWKS document is its list of keys. -/
abbrev Jwks := List Jwk

/-- Modelled from the spec: `JWKSCacheEntry` of section 3 — issuer key,
raw JWKS document and the three timestamps. -/
structure JWKSCacheEntry where
  issuer : String
  rawJwks : Jwks
  fetchedAt : Int
  expiresAt : Int
  nextUpdateAt : Int
deriving DecidableEq, Repr

/-- The per-principal key cache: one entry per issuer. -/
abbrev KeyCache := List JWKSCacheEntry

/-- Find the cache entry for an issuer. -/
def lookupEntry : KeyCache → String → Option JWKSCacheEntry
  | [], _ => none
  | e :: rest, iss => if e.issuer = iss then some e else lookupEntry rest iss

/-- Replace the entry for an issuer in place, or append a fresh one. -/
def replaceEntry : KeyCache → JWKSCacheEntry → KeyCache
  | [], e => [e]
  | e' :: rest, e =>
    if e'.issuer = e.issuer then e :: rest else e' :: replaceEntry rest e

/-- Modelled from the spec: the standard default cache-lifetime policy used
for a freshly fetched, directive-less JWKS response (concrete durations are
model constants; the spec fixes only that `expires_at ≥ fetched_at`). -/
def defaultCacheLifetime : Int := 4 * 24 * 3600

/-- Modelled from the spec: default refresh interval for `next_update_at`. -/
def defaultNextUpdate : Int := 600

/-- Build the fresh cache entry for a newly obtained JWKS document. -/
def mkFreshEntry (issuer : String) (doc : Jwks) (now : Int) : JWKSCacheEntry :=
  { issuer := issuer, rawJwks := doc, fetchedAt := now,
    expiresAt := now + defaultCacheLifetime, nextUpdateAt := now + defaultNextUpdate }

/-- Modelled from the spec: `keycache_get_cached_jwks` (missing from the
repository; only its declaration in `src/scitokens.h` is present).  Read
only: if the entry is absent or `now > expires_at`, it returns status 0 and
a JWKS with an empty key list; otherwise status 0 and the cached document's
keys.  The function takes no network-fetch collaborator at all, so it can
never trigger network I/O. -/
def keycache_get_cached_jwks (cache : KeyCache) (now : Int) (issuer : String) :
    Int × Jwks :=
  match lookupEntry cache issuer with
  | none => (0, [])
  | some e => if now > e.expiresAt then (0, []) else (0, e.rawJwks)

/-- Modelled from the spec: `keycache_refresh_jwks` (missing from the
repository).  The external fetch collaborator's outcome is passed in as an
`Except` value: an unconditional fetch-and-replace on success, and on fetch
failure a nonzero status with an error message while the cache is left
untouched.  Returns ((status, err_msg), new cache state). -/
def keycache_refresh_jwks (cache : KeyCache) (now : Int) (issuer : String)
    (fetchResult : Except String Jwks) : (Int × Option String) × KeyCache :=
  match fetchResult with
  | .error msg => ((1, some msg), cache)
  | .ok doc => ((0, none), replaceEntry cache (mkFreshEntry issuer doc now))

/-- C3: for every issuer, `keycache_get_cached_jwks` returns status 0; when
the entry is absent or stale (`now > expires_at`) the returned JWKS has an
empty key list, otherwise it is exactly the cached document's keys.  The
model function has no fetch capability, so no call performs network I/O. -/
theorem keycache_get_cached_jwks_spec (cache : KeyCache) (now : Int) (issuer : String) :
    (keycache_get_cached_jwks cache now issuer).1 = 0 ∧
    ((lookupEntry cache issuer = none ∨
      (∃ e, lookupEntry cache issuer = some e ∧ now > e.expiresAt)) →
      (keycache_get_cached_jwks cache now issuer).2 = []) ∧
    (∀ e, lookupEntry cache issuer = some e → ¬ now > e.expiresAt →
      (keycache_get_cached_jwks cache now issuer).2 = e.rawJwks) := by
  refine ⟨?_, ?_, ?_⟩
  · unfold keycache_get_cached_jwks
    rcases h : lookupEntry cache issuer with _ | e
    · rfl
    · by_cases hb : now > e.expiresAt <;> simp [hb]
  · rintro (h | ⟨e, h, hexp⟩)
    · simp [keycache_get_cached_jwks, h]
    · simp [keycache_get_cached_jwks, h, hexp]
  · intro e h hexp
    simp [keycache_get_cached_jwks, h, hexp]

/-- Witness for C3 at concrete inputs: an empty cache, a stale entry and a
fresh entry. -/
theorem keycache_get_cached_jwks_spec_witness :
    (keycache_get_cached_jwks [] 5 "https://a").2 = [] ∧
    (keycache_get_cached_jwks [mkFreshEntry "https://a" [⟨"k1", "ES256", "pub"⟩] 0] 7 "https://a").2
      = [⟨"k1", "ES256", "pub"⟩] :=
  ⟨(keycache_get_cached_jwks_spec [] 5 "https://a").2.1 (Or.inl rfl),
   (keycache_get_cached_jwks_spec [mkFreshEntry "https://a" [⟨"k1", "ES256", "pub"⟩] 0]
      7 "https://a").2.2 (mkFreshEntry "https://a" [⟨"k1", "ES256", "pub"⟩] 0) rfl (by decide)⟩

/-- C8: when the external fetch fails, `keycache_refresh_jwks` returns a
nonzero status together with the error message, and the whole cache — in
particular the previously cached entry for the issuer, its document and all
three timestamps — is exactly what it was; a successful fetch replaces the
issuer's entry with a fresh one built by the default lifetime policy. -/
theorem keycache_refresh_jwks_spec (cache : KeyCache) (now : Int) (issuer : String) :
    (∀ msg, (keycache_refresh_jwks cache now issuer (.error msg)).1.1 ≠ 0 ∧
      (keycache_refresh_jwks cache now issuer (.error msg)).1.2 = some msg ∧
      (keycache_refresh_jwks cache now issuer (.error msg)).2 = cache) ∧
    (∀ doc, (keycache_refresh_jwks cache now issuer (.ok doc)).1.1 = 0 ∧
      lookupEntry (keycache_refresh_jwks cache now issuer (.ok doc)).2 issuer =
        some (mkFreshEntry issuer doc now)) := by
  constructor
  · intro msg
    exact ⟨by simp [keycache_refresh_jwks], rfl, rfl⟩
  · intro doc
    refine ⟨rfl, ?_⟩
    show lookupEntry (replaceEntry cache (mkFreshEntry issuer doc now)) issuer = _
    induction cache with
    | nil => simp [replaceEntry, lookupEntry, mkFreshEntry]
    | cons e rest ih =>
      by_cases he : e.issuer = (mkFreshEntry issuer doc now).issuer
      · simp [replaceEntry, he, lookupEntry, mkFreshEntry]
      · simp only [replaceEntry, if_neg he, lookupEntry]
        rw [if_neg (by simpa [mkFreshEntry] using he), ih]

/-- Witness for C8 at concrete inputs (the hypotheses are universally
quantified conjuncts; we instantiate them at a concrete cache, message and
document). -/
theorem keycache_refresh_jwks_spec_witness :
    (keycache_refresh_jwks [mkFreshEntry "https://a" [] 0] 9 "https://a"
        (.error "timeout")).2 = [mkFreshEntry "https://a" [] 0] ∧
    lookupEntry (keycache_refresh_jwks [mkFreshEntry "https://a" [] 0] 9 "https://a"
        (.ok [⟨"k2", "RS256", "pub2"⟩])).2 "https://a" =
      some (mkFreshEntry "https://a" [⟨"k2", "RS256", "pub2"⟩] 9) :=
  ⟨((keycache_refresh_jwks_spec [mkFreshEntry "https://a" [] 0] 9 "https://a").1
      "timeout").2.2,
   ((keycache_refresh_jwks_spec [mkFreshEntry "https://a" [] 0] 9 "https://a").2
      [⟨"k2", "RS256", "pub2"⟩]).2⟩

/-! ### Character-level word splitting (used for scope strings and paths) -/

/-- Fold step for splitting a character list on a separator: a separator
opens a fresh (empty) word, any other character extends the current word. -/
def splitSepF (sep c : Char) (acc : List (List Char)) : List (List Char) :=
  if c = sep then [] :: acc
  else
    match acc with
    | [] => [[c]]
    | w :: ws => (c :: w) :: ws

/-- Split a character list on a separator, keeping empty words. -/
def splitSepCore (sep : Char) (l : List Char) : List (List Char) :=
  l.foldr (splitSepF sep) []

/-- Split a character list on a separator, dropping empty words. -/
def splitSep (sep : Char) (l : List Char) : List (List Char) :=
  (splitSepCore sep l).filter (fun w => !w.isEmpty)

/-- Join words with a single separator between them. -/
def joinWords (sep : Char) : List (List Char) → List Char
  | [] => []
  | [w] => w
  | w :: w₂ :: ws => w ++ sep :: joinWords sep (w₂ :: ws)

theorem foldr_splitSepF_consacc (sep : Char) (w a : List Char) (as : List (List Char))
    (hw : ∀ c ∈ w, c ≠ sep) :
    w.foldr (splitSepF sep) (a :: as) = (w ++ a) :: as := by
  induction w with
  | nil => rfl
  | cons c w' ih =>
    have hc : c ≠ sep := hw c (List.mem_cons_self c w')
    have hw' : ∀ d ∈ w', d ≠ sep := fun d hd => hw d (List.mem_cons_of_mem c hd)
    simp only [List.foldr_cons, ih hw', splitSepF, if_neg hc, List.cons_append]

theorem foldr_splitSepF_nilacc (sep : Char) (w : List Char)
    (hw : ∀ c ∈ w, c ≠ sep) (hne : w ≠ []) :
    w.foldr (splitSepF sep) [] = [w] := by
  induction w with
  | nil => exact absurd rfl hne
  | cons c w' ih =>
    have hc : c ≠ sep := hw c (List.mem_cons_self c w')
    have hw' : ∀ d ∈ w', d ≠ sep := fun d hd => hw d (List.mem_cons_of_mem c hd)
    rcases hw'' : w' with _ | ⟨d, w''⟩
    · simp [splitSepF, if_neg hc]
    · rw [List.foldr_cons, ← hw'', ih hw' (by simp [hw''])]
      simp [splitSepF, if_neg hc]

theorem splitSepCore_join (sep : Char) (ws : List (List Char))
    (hne : ∀ w ∈ ws, w ≠ []) (hsep : ∀ w ∈ ws, ∀ c ∈ w, c ≠ sep) :
    splitSepCore sep (joinWords sep ws) = ws := by
  induction ws with
  | nil => rfl
  | cons w ws ih =>
    rcases ws with _ | ⟨w₂, rest⟩
    · exact foldr_splitSepF_nilacc sep w (hsep w (by simp)) (hne w (by simp))
    · have hJ : splitSepCore sep (joinWords sep (w₂ :: rest)) = w₂ :: rest :=
        ih (fun v hv => hne v (List.mem_cons_of_mem w hv))
           (fun v hv => hsep v (List.mem_cons_of_mem w hv))
      show (w ++ sep :: joinWords sep (w₂ :: rest)).foldr (splitSepF sep) [] = _
      rw [List.foldr_append, List.foldr_cons]
      have hstep : splitSepF sep sep ((joinWords sep (w₂ :: rest)).foldr (splitSepF sep) [])
          = [] :: (w₂ :: rest) := by
        rw [show (joinWords sep (w₂ :: rest)).foldr (splitSepF sep) [] =
              splitSepCore sep (joinWords sep (w₂ :: rest)) from rfl, hJ]
        simp [splitSepF]
      rw [hstep, foldr_splitSepF_consacc sep w [] (w₂ :: rest) (hsep w (by simp))]
      simp

theorem splitSepCore_no_sep (sep : Char) (l : List Char) :
    ∀ w ∈ splitSepCore sep l, ∀ c ∈ w, c ≠ sep := by
  induction l with
  | nil => intro w hw; simp [splitSepCore] at hw
  | cons c rest ih =>
    intro w hw
    have hstep : splitSepCore sep (c :: rest) = splitSepF sep c (splitSepCore sep rest) := rfl
    rw [hstep] at hw
    unfold splitSepF at hw
    split at hw
    · rcases List.mem_cons.mp hw with h | h
      · subst h; intro d hd; simp at hd
      · exact ih w h
    · next hc =>
      rcases hcore : splitSepCore sep rest with _ | ⟨v, vs⟩ <;> rw [hcore] at hw
      · simp at hw
        subst hw
        intro d hd
        simp at hd
        subst hd; exact hc
      · rcases List.mem_cons.mp hw with h | h
        · subst h
          intro d hd
          rcases List.mem_cons.mp hd with h | h
          · subst h; exact hc
          · exact ih v (by rw [hcore]; exact List.mem_cons_self v vs) d h
        · exact ih w (by rw [hcore]; exact List.mem_cons_of_mem v h)

theorem splitSep_eq_core (sep : Char) (l : List Char)
    (h : ∀ w ∈ splitSepCore sep l, w ≠ []) : splitSep sep l = splitSepCore sep l := by
  unfold splitSep
  rw [List.filter_eq_self]
  intro w hw
  simpa using h w hw

theorem splitSep_join (sep : Char) (ws : List (List Char))
    (hne : ∀ w ∈ ws, w ≠ []) (hsep : ∀ w ∈ ws, ∀ c ∈ w, c ≠ sep) :
    splitSep sep (joinWords sep ws) = ws := by
  have hcore := splitSepCore_join sep ws hne hsep
  rw [splitSep_eq_core sep _ (by rw [hcore]; exact hne), hcore]

theorem splitSep_mem_ne_nil (sep : Char) (l : List Char) :
    ∀ w ∈ splitSep sep l, w ≠ [] := by
  intro w hw
  unfold splitSep at hw
  have := (List.mem_filter.mp hw).2
  simpa using this

theorem splitSep_mem_no_sep (sep : Char) (l : List Char) :
    ∀ w ∈ splitSep sep l, ∀ c ∈ w, c ≠ sep := by
  intro w hw
  exact splitSepCore_no_sep sep l w (List.mem_filter.mp hw).1

/-- Split a character list at the first occurrence of a separator. -/
def splitFirst (sep : Char) : List Char → Option (List Char × List Char)
  | [] => none
  | c :: rest =>
    if c = sep then some ([], rest)
    else
      match splitFirst sep rest with
      | none => none
      | some (a, b) => some (c :: a, b)

theorem splitFirst_append (sep : Char) (a b : List Char) (ha : ∀ c ∈ a, c ≠ sep) :
    splitFirst sep (a ++ sep :: b) = some (a, b) := by
  induction a with
  | nil => simp [splitFirst]
  | cons c a' ih =>
    have hc : c ≠ sep := ha c (List.mem_cons_self c a')
    have ha' : ∀ d ∈ a', d ≠ sep := fun d hd => ha d (List.mem_cons_of_mem c hd)
    rw [List.cons_append]
    unfold splitFirst
    rw [if_neg hc, ih ha']

theorem splitFirst_eq_none (sep : Char) (l : List Char)
    (h : splitFirst sep l = none) : ∀ c ∈ l, c ≠ sep := by
  induction l with
  | nil => intro c hc; simp at hc
  | cons c rest ih =>
    intro d hd
    unfold splitFirst at h
    split at h
    · simp at h
    · next hc =>
      rcases List.mem_cons.mp hd with h' | h'
      · subst h'; exact hc
      · rcases hrest : splitFirst sep rest with _ | p <;> rw [hrest] at h
        · exact ih hrest d h'
        · rcases p with ⟨x, y⟩; simp at h

theorem splitFirst_eq_some (sep : Char) (l a b : List Char)
    (h : splitFirst sep l = some (a, b)) :
    (∀ c ∈ a, c ≠ sep) ∧ l = a ++ sep :: b := by
  induction l generalizing a with
  | nil => simp [splitFirst] at h
  | cons c rest ih =>
    unfold splitFirst at h
    split at h
    · next hc =>
      simp only [Option.some.injEq, Prod.mk.injEq] at h
      subst hc
      refine ⟨?_, ?_⟩
      · rw [← h.1]; intro d hd; simp at hd
      · rw [← h.1, ← h.2]; rfl
    · next hc =>
      rcases hrest : splitFirst sep rest with _ | ⟨x, y⟩ <;> rw [hrest] at h
      · simp at h
      · simp only [Option.some.injEq, Prod.mk.injEq] at h
        obtain ⟨hax, hyb⟩ := h
        have hxy := ih x (by rw [hrest, hyb])
        refine ⟨?_, ?_⟩
        · rw [← hax]
          intro d hd
          rcases List.mem_cons.mp hd with h' | h'
          · subst h'; exact hc
          · exact hxy.1 d h'
        · rw [← hax, List.cons_append, hxy.2]


/-! ### ProfileResolver (spec section 4.2) -/

/-- Modelled from the spec: the canonical authorization unit — an action
name paired with a resource path. -/
structure Authorization where
  action : String
  resource : String
deriving DecidableEq, Repr

/-- Parse one scope entry under the colon-delimited grammar shared by
SciTokens 2.0 and WLCG 1.0: `action:/absolute/path`; a bare action implies
the whole namespace `/`. -/
def parseEntryColon (e : List Char) : Option Authorization :=
  match splitFirst ':' e with
  | none => if e = [] then none else some ⟨String.mk e, "/"⟩
  | some (a, p) =>
    if a = [] then none
    else if p.head? = some '/' then some ⟨String.mk a, String.mk p⟩ else none

/-- Modelled from the spec: parse one scope entry under a profile's
grammar.  SciTokens 1.0 entries are bare action tokens (the resource is
implied, the whole namespace `/`); the other profiles use the
colon-delimited grammar.  A malformed entry yields `none`
(`MalformedScopeError`). -/
def parseEntry : SciTokenProfile → List Char → Option Authorization
  | SciTokenProfile.SCITOKENS_1_0, e =>
    if e = [] then none
    else if ':' ∈ e then none
    else some ⟨String.mk e, "/"⟩
  | _, e => parseEntryColon e

/-- Render one canonical authorization in the colon-delimited syntax. -/
def encodeEntryColon (a : Authorization) : List Char :=
  a.action.data ++ ':' :: a.resource.data

/-- Modelled from the spec: render one canonical authorization in a
profile's scope-entry syntax. -/
def encodeEntry : SciTokenProfile → Authorization → List Char
  | SciTokenProfile.SCITOKENS_1_0, a => a.action.data
  | _, a => encodeEntryColon a

theorem parseEntryColon_of_no_colon (w : List Char) (h : splitFirst ':' w = none) :
    parseEntryColon w = if w = [] then none else some ⟨String.mk w, "/"⟩ := by
  unfold parseEntryColon
  rw [h]

theorem parseEntryColon_of_colon (w x p : List Char) (h : splitFirst ':' w = some (x, p)) :
    parseEntryColon w =
      if x = [] then none
      else if p.head? = some '/' then some ⟨String.mk x, String.mk p⟩ else none := by
  unfold parseEntryColon
  rw [h]

theorem parseEntryColon_encode (w : List Char) (a : Authorization)
    (h : parseEntryColon w = some a) (hsp : ∀ c ∈ w, c ≠ ' ') :
    parseEntryColon (encodeEntryColon a) = some a ∧ encodeEntryColon a ≠ [] ∧
      ∀ c ∈ encodeEntryColon a, c ≠ ' ' := by
  rcases hsf : splitFirst ':' w with _ | ⟨x, p⟩
  · rw [parseEntryColon_of_no_colon w hsf] at h
    by_cases he : w = []
    · rw [if_pos he] at h; simp at h
    · rw [if_neg he, Option.some.injEq] at h
      have hnc : ∀ c ∈ w, c ≠ ':' := splitFirst_eq_none ':' w hsf
      subst h
      have henc : encodeEntryColon ⟨String.mk w, "/"⟩ = w ++ ':' :: ['/'] := rfl
      refine ⟨?_, ?_, ?_⟩
      · rw [henc, parseEntryColon_of_colon _ w ['/'] (splitFirst_append ':' w ['/'] hnc),
            if_neg he]
        rfl
      · simp [henc]
      · intro c hcw
        rw [henc] at hcw
        rcases List.mem_append.mp hcw with h' | h'
        · exact hsp c h'
        · rcases List.mem_cons.mp h' with h' | h'
          · subst h'; decide
          · simp only [List.mem_singleton] at h'
            subst h'; decide
  · rw [parseEntryColon_of_colon w x p hsf] at h
    by_cases hx : x = []
    · rw [if_pos hx] at h; simp at h
    · rw [if_neg hx] at h
      by_cases hp : p.head? = some '/'
      · rw [if_pos hp, Option.some.injEq] at h
        obtain ⟨hncx, hw⟩ := splitFirst_eq_some ':' w x p hsf
        subst h
        have henc : encodeEntryColon ⟨String.mk x, String.mk p⟩ = x ++ ':' :: p := rfl
        refine ⟨?_, ?_, ?_⟩
        · rw [henc, parseEntryColon_of_colon _ x p (splitFirst_append ':' x p hncx),
              if_neg hx, if_pos hp]
        · simp [henc]
        · intro c hcw
          rw [henc] at hcw
          rw [hw] at hsp
          rcases List.mem_append.mp hcw with h' | h'
          · exact hsp c (List.mem_append.mpr (Or.inl h'))
          · exact hsp c (List.mem_append.mpr (Or.inr h'))
      · rw [if_neg hp] at h; simp at h

theorem parseEntry_encodeEntry (P : SciTokenProfile) (w : List Char) (a : Authorization)
    (h : parseEntry P w = some a) (hsp : ∀ c ∈ w, c ≠ ' ') :
    parseEntry P (encodeEntry P a) = some a ∧ encodeEntry P a ≠ [] ∧
      ∀ c ∈ encodeEntry P a, c ≠ ' ' := by
  cases P
  case SCITOKENS_1_0 =>
    simp only [parseEntry] at h
    by_cases he : w = []
    · rw [if_pos he] at h; simp at h
    · rw [if_neg he] at h
      by_cases hc : ':' ∈ w
      · rw [if_pos hc] at h; simp at h
      · rw [if_neg hc, Option.some.injEq] at h
        subst h
        refine ⟨?_, ?_, ?_⟩
        · simp only [parseEntry, encodeEntry]
          rw [if_neg he, if_neg hc]
        · simpa [encodeEntry] using he
        · intro c hcw; exact hsp c hcw
  case COMPAT => exact parseEntryColon_encode w a h hsp
  case SCITOKENS_2_0 => exact parseEntryColon_encode w a h hsp
  case WLCG_1_0 => exact parseEntryColon_encode w a h hsp
  case AT_JWT => exact parseEntryColon_encode w a h hsp

/-- Parse every entry of a scope, failing if any entry is malformed. -/
def parseEntries (P : SciTokenProfile) : List (List Char) → Option (List Authorization)
  | [] => some []
  | w :: ws =>
    match parseEntry P w, parseEntries P ws with
    | some a, some as => some (a :: as)
    | _, _ => none

/-- Modelled from the spec: translate a profile-specific space-delimited
scope claim string into the canonical authorization list; `none` models
`MalformedScopeError`. -/
def scopeToAuthorizations (P : SciTokenProfile) (s : String) : Option (List Authorization) :=
  parseEntries P (splitSep ' ' s.data)

/-- Modelled from the spec: render a canonical authorization list as a
profile-specific space-delimited scope claim string. -/
def authorizationsToScope (P : SciTokenProfile) (auths : List Authorization) : String :=
  String.mk (joinWords ' ' (auths.map (encodeEntry P)))

theorem parseEntries_encode (P : SciTokenProfile) (ws : List (List Char))
    (as : List Authorization) (h : parseEntries P ws = some as)
    (hsp : ∀ w ∈ ws, ∀ c ∈ w, c ≠ ' ') :
    parseEntries P (as.map (encodeEntry P)) = some as ∧
      (∀ w ∈ as.map (encodeEntry P), w ≠ []) ∧
      (∀ w ∈ as.map (encodeEntry P), ∀ c ∈ w, c ≠ ' ') := by
  induction ws generalizing as with
  | nil =>
    simp only [parseEntries, Option.some.injEq] at h
    subst h
    exact ⟨rfl, by simp, by simp⟩
  | cons w ws ih =>
    simp only [parseEntries] at h
    rcases hpe : parseEntry P w with _ | a <;> rw [hpe] at h
    · simp at h
    · rcases hps : parseEntries P ws with _ | rest <;> rw [hps] at h
      · simp at h
      · simp only [Option.some.injEq] at h
        subst h
        have hw : ∀ c ∈ w, c ≠ ' ' := hsp w (List.mem_cons_self w ws)
        have hws : ∀ v ∈ ws, ∀ c ∈ v, c ≠ ' ' :=
          fun v hv => hsp v (List.mem_cons_of_mem w hv)
        obtain ⟨hre, hne, hnsp⟩ := parseEntry_encodeEntry P w a hpe hw
        obtain ⟨ihre, ihne, ihnsp⟩ := ih rest hps hws
        refine ⟨?_, ?_, ?_⟩
        · simp only [List.map_cons, parseEntries, hre, ihre]
        · intro v hv
          rcases List.mem_cons.mp hv with h' | h'
          · rw [h']; exact hne
          · exact ihne v h'
        · intro v hv
          rcases List.mem_cons.mp hv with h' | h'
          · rw [h']; exact hnsp
          · exact ihnsp v h'

/-- The scope re-encoding round-trips through the profile resolver: a scope
string that resolves to a canonical authorization list re-encodes to a
scope string resolving to the same list. -/
theorem scope_roundtrip (P : SciTokenProfile) (s : String) (auths : List Authorization)
    (h : scopeToAuthorizations P s = some auths) :
    scopeToAuthorizations P (authorizationsToScope P auths) = some auths := by
  unfold scopeToAuthorizations at h ⊢
  have hsp : ∀ w ∈ splitSep ' ' s.data, ∀ c ∈ w, c ≠ ' ' := splitSep_mem_no_sep ' ' s.data
  obtain ⟨hre, hne, hnsp⟩ := parseEntries_encode P (splitSep ' ' s.data) auths h hsp
  rw [show (authorizationsToScope P auths).data = joinWords ' ' (auths.map (encodeEntry P))
        from rfl]
  rw [splitSep_join ' ' (auths.map (encodeEntry P)) hne hnsp]
  exact hre

/-! ### TokenCodec (spec sections 3 and 4.1) -/

/-- Modelled from the spec: the Token record of section 3.  The signing key
itself lives with the external signing primitive, so only its presence is
kept; `profile` is the effective profile determined at deserialize time;
`kid` is the key-id header of the decoded token; `sigValid` carries the
external crypto primitive's verdict on the token's signature — it is
recorded by deserialization and examined only by the Validator. -/
structure SciToken where
  claims : ClaimSet
  hasSigningKey : Bool
  serializeProfile : SciTokenProfile
  deserializeProfile : SciTokenProfile
  lifetime : Int
  profile : SciTokenProfile
  kid : Option String
  sigValid : Bool
deriving DecidableEq, Repr

/-- Modelled from the spec: default token lifetime in seconds when the
caller never calls `set_lifetime` (a model constant). -/
def defaultLifetime : Int := 600

/-- Modelled from the spec: `scitoken_create` — empty claim set, optional
signing key. -/
def scitoken_create (hasKey : Bool) : SciToken :=
  { claims := [], hasSigningKey := hasKey, serializeProfile := .COMPAT,
    deserializeProfile := .COMPAT, lifetime := defaultLifetime,
    profile := .COMPAT, kid := none, sigValid := true }

/-- Modelled from the spec: `scitoken_set_claim_string`. -/
def scitoken_set_claim_string (t : SciToken) (key value : String) : SciToken :=
  { t with claims := setClaim t.claims key (Value.str value) }

/-- Modelled from the spec: `scitoken_set_lifetime`. -/
def scitoken_set_lifetime (t : SciToken) (lifetime : Int) : SciToken :=
  { t with lifetime := lifetime }

/-- Modelled from the spec: `scitoken_set_serialize_profile`. -/
def scitoken_set_serialize_profile (t : SciToken) (P : SciTokenProfile) : SciToken :=
  { t with serializeProfile := P }

/-- Modelled from the spec: `scitoken_get_expiration` — the `exp` claim, or
`ClaimMissingError` when absent. -/
def scitoken_get_expiration (t : SciToken) : Except SciTokenError Int :=
  match lookupClaim t.claims "exp" with
  | some (Value.num e) => .ok e
  | some _ => .error .ClaimTypeError
  | none => .error .ClaimMissingError

/-- Modelled from the spec: the decoded form of a compact serialized token,
as the external JOSE codec reports it — the `typ` header, the `kid` header,
the payload claim set, and the crypto primitive's verdict on whether the
signature cryptographically verifies.  A malformed compact encoding is
`none` at the `scitoken_deserialize` boundary. -/
structure SerializedToken where
  typ : Option String
  kid : Option String
  payload : ClaimSet
  sigValid : Bool
deriving DecidableEq, Repr

/-- Modelled from the spec: COMPAT serialization uses the library default
profile (SciTokens 1.0). -/
def effectiveSerializeProfile : SciTokenProfile → SciTokenProfile
  | .COMPAT => .SCITOKENS_1_0
  | P => P

/-- Modelled from the spec: the `typ` header written per profile (RFC 8725
section 3.11 for AT-JWT). -/
def typHeader : SciTokenProfile → Option String
  | .AT_JWT => some "at+jwt"
  | _ => some "JWT"

/-- Modelled from the spec: profile marker claims written on serialize and
used by the COMPAT detection heuristics (version claims for SciTokens 2.0
and WLCG 1.0; SciTokens 1.0 and AT-JWT carry no marker claim). -/
def addProfileMarker : SciTokenProfile → ClaimSet → ClaimSet
  | .SCITOKENS_2_0, cs => setClaim cs "ver" (Value.str "scitokens:2.0")
  | .WLCG_1_0, cs => setClaim cs "wlcg.ver" (Value.str "1.0")
  | _, cs => cs

/-- Modelled from the spec: profile-specific re-encoding of the scope claim
through the ProfileResolver; AT-JWT performs no scope translation.  An
unparsable scope cannot be represented in the target profile
(`ProfileEncodingError`). -/
def reencodeScope (P : SciTokenProfile) (cs : ClaimSet) : Except SciTokenError ClaimSet :=
  if P = .AT_JWT then .ok cs
  else
    match lookupClaim cs "scope" with
    | none => .ok cs
    | some (Value.str s) =>
      match scopeToAuthorizations P s with
      | some auths => .ok (setClaim cs "scope" (Value.str (authorizationsToScope P auths)))
      | none => .error .ProfileEncodingError
    | some _ => .error .ClaimTypeError

/-- Modelled from the spec: `scitoken_serialize` at time `now`.  Fails with
`SigningError` when no private key is bound and requires `iss` to be
present.  `iat` defaults to the current time when not explicitly set, and
`exp = iat + lifetime` when not explicitly set; the effective profile's
marker claims are stamped and the scope claim is re-encoded through the
ProfileResolver.  The produced signature verifies (`sigValid = true`). -/
def scitoken_serialize (t : SciToken) (now : Int) : Except SciTokenError SerializedToken :=
  if t.hasSigningKey = false then .error .SigningError
  else if (lookupClaim t.claims "iss").isNone then .error .ClaimMissingError
  else
    let iat : Int := match lookupClaim t.claims "iat" with
      | some (Value.num i) => i
      | _ => now
    let expAt : Int := match lookupClaim t.claims "exp" with
      | some (Value.num e) => e
      | _ => iat + t.lifetime
    let P := effectiveSerializeProfile t.serializeProfile
    match reencodeScope P
        (addProfileMarker P (setClaim (setClaim t.claims "iat" (Value.num iat))
          "exp" (Value.num expAt))) with
    | .ok payload =>
      .ok { typ := typHeader P, kid := none, payload := payload, sigValid := true }
    | .error e => .error e

/-- Modelled from the spec: COMPAT detection heuristics in the fixed
precedence order SciTokens 2.0 → WLCG 1.0 → AT-JWT → SciTokens 1.0
(SciTokens 1.0 is the final fallback). -/
def detectProfile (st : SerializedToken) : SciTokenProfile :=
  if lookupClaim st.payload "ver" = some (Value.str "scitokens:2.0") then .SCITOKENS_2_0
  else if (lookupClaim st.payload "wlcg.ver").isSome then .WLCG_1_0
  else if st.typ = some "at+jwt" then .AT_JWT
  else .SCITOKENS_1_0

/-- The token populated from a decoded serialized token: the claim set is
copied verbatim, the signature verdict and key id are carried along. -/
def tokenOf (st : SerializedToken) (prof dp : SciTokenProfile) : SciToken :=
  { claims := st.payload, hasSigningKey := false, serializeProfile := .COMPAT,
    deserializeProfile := dp, lifetime := defaultLifetime, profile := prof,
    kid := st.kid, sigValid := st.sigValid }

/-- The effective profile at deserialization: the explicit deserialize
profile when not COMPAT, else the COMPAT detection heuristics. -/
def effectiveDeserializeProfile (dp : SciTokenProfile) (st : SerializedToken) :
    SciTokenProfile :=
  if dp = .COMPAT then detectProfile st else dp

/-- Modelled from the spec: `scitoken_deserialize` — decodes header and
payload (a malformed compact encoding is `ParseError`), determines the
effective profile, verifies the issuer against `allowed_issuers` when that
list is non-empty, and populates the claim set.  It never examines the
signature verdict. -/
def scitoken_deserialize : Option SerializedToken → List String → SciTokenProfile →
    Except SciTokenError SciToken
  | none, _, _ => .error .ParseError
  | some st, allowed, dp =>
    if allowed = [] then .ok (tokenOf st (effectiveDeserializeProfile dp st) dp)
    else
      match lookupClaim st.payload "iss" with
      | some (Value.str i) =>
        if i ∈ allowed then .ok (tokenOf st (effectiveDeserializeProfile dp st) dp)
        else .error .IssuerNotAllowedError
      | _ => .error .IssuerNotAllowedError

/-! ### Validator (spec section 4.3) -/

/-- Modelled from the spec: Validator state of section 3 — optional time
override, accepted profile, ordered caller-registered checks (predicates on
the string claim value), and the critical-claim name set. -/
structure Validator where
  timeOverride : Option Int
  profile : SciTokenProfile
  checks : List (String × (String → Bool))
  criticalClaims : List String

/-- Modelled from the spec: `validator_create` — a fresh COMPAT validator
with no checks and no critical claims. -/
def validator_create : Validator :=
  { timeOverride := none, profile := .COMPAT, checks := [], criticalClaims := [] }

/-- Modelled from the spec: `validator_set_time`. -/
def validator_set_time (v : Validator) (now : Int) : Validator :=
  { v with timeOverride := some now }

/-- Modelled from the spec: `validator_add` registers a predicate for a
claim name. -/
def validator_add (v : Validator) (claim : String) (f : String → Bool) : Validator :=
  { v with checks := v.checks ++ [(claim, f)] }

/-- Modelled from the spec: `validator_add_critical_claims`. -/
def validator_add_critical_claims (v : Validator) (claims : List String) : Validator :=
  { v with criticalClaims := v.criticalClaims ++ claims }

/-- Run one registered check against a claim value (registered checks take
the string value of the claim; a non-string value fails the check). -/
def runCheck (f : String → Bool) : Value → Bool
  | Value.str s => f s
  | _ => false

/-- Run every registered check in order against the claims present in the
claim set (a check whose claim is absent is skipped here; mandatoriness is
the critical-claims step). -/
def runChecks : List (String × (String → Bool)) → ClaimSet → Bool
  | [], _ => true
  | (c, f) :: rest, cs =>
    (match lookupClaim cs c with
     | none => true
     | some v => runCheck f v) && runChecks rest cs

/-- Expiry check: `exp > now` (leeway 0, the default); a token without an
`exp` number passes this step. -/
def checkExp (cs : ClaimSet) (now : Int) : Bool :=
  match lookupClaim cs "exp" with
  | some (Value.num e) => now < e
  | _ => true

/-- Not-before check: `nbf ≤ now` when present. -/
def checkNbf (cs : ClaimSet) (now : Int) : Bool :=
  match lookupClaim cs "nbf" with
  | some (Value.num n) => n ≤ now
  | _ => true

/-- Issued-at check: `iat ≤ now` when present. -/
def checkIat (cs : ClaimSet) (now : Int) : Bool :=
  match lookupClaim cs "iat" with
  | some (Value.num i) => i ≤ now
  | _ => true

/-- Every critical claim name is present in the claim set. -/
def criticalsPresent (crits : List String) (cs : ClaimSet) : Bool :=
  crits.all (fun c => (lookupClaim cs c).isSome)

/-- Modelled from the spec: resolve the verification key by issuer and
key id against the cache contents (the refresh-if-stale fetch of the
internal path degrades to the cached state on failure, so resolution is
against whatever the cache holds). -/
def resolveKey (cache : KeyCache) (now : Int) (iss : String) (kid : Option String) :
    Option Jwk :=
  let keys := (keycache_get_cached_jwks cache now iss).2
  match kid with
  | some k => keys.find? (fun j => j.kid = k)
  | none => keys.head?

/-- Modelled from the spec: `validator_validate`, steps (a)–(f) of section
4.3 in order — resolve issuer, resolve verification key
(`KeyNotFoundError`), verify the signature (`SignatureInvalidError`), check
`exp` (`ExpiredTokenError`) then `nbf`/`iat` (`NotYetValidError`), run the
registered checks, and require every critical claim present. -/
def validator_validate (v : Validator) (cache : KeyCache) (extNow : Int) (t : SciToken) :
    Except SciTokenError Unit :=
  match lookupClaim t.claims "iss" with
  | some (Value.str iss) =>
    match resolveKey cache (v.timeOverride.getD extNow) iss t.kid with
    | none => .error .KeyNotFoundError
    | some _ =>
      if t.sigValid = false then .error .SignatureInvalidError
      else if checkExp t.claims (v.timeOverride.getD extNow) = false then
        .error .ExpiredTokenError
      else if checkNbf t.claims (v.timeOverride.getD extNow) = false then
        .error .NotYetValidError
      else if checkIat t.claims (v.timeOverride.getD extNow) = false then
        .error .NotYetValidError
      else if runChecks v.checks t.claims = false then .error .ValidationError
      else if criticalsPresent v.criticalClaims t.claims = false then
        .error .ClaimMissingError
      else .ok ()
  | _ => .error .ClaimMissingError

/-- C1: for every well-formed serialized token whose issuer passes the
allow-list and whose profile is determined (the COMPAT heuristics always
determine one), `scitoken_deserialize` succeeds and populates the token's
claim set whatever the signature verdict is — in particular when the
signature is cryptographically invalid — and the signature is examined only
inside `validator_validate`, which rejects the bad-signature token with
`SignatureInvalidError` once the verification key is resolved. -/
theorem scitoken_deserialize_defers_signature
    (st : SerializedToken) (allowed : List String) (dp : SciTokenProfile)
    (v : Validator) (cache : KeyCache) (extNow : Int) (iss : String) (k : Jwk)
    (hallow : allowed = [] ∨
      ∃ i, lookupClaim st.payload "iss" = some (Value.str i) ∧ i ∈ allowed)
    (hiss : lookupClaim st.payload "iss" = some (Value.str iss))
    (hkey : resolveKey cache (v.timeOverride.getD extNow) iss st.kid = some k) :
    (∀ b : Bool, ∃ t, scitoken_deserialize (some { st with sigValid := b }) allowed dp = .ok t ∧
        t.claims = st.payload ∧ t.sigValid = b) ∧
    (∀ t, scitoken_deserialize (some { st with sigValid := false }) allowed dp = .ok t →
        validator_validate v cache extNow t = .error .SignatureInvalidError) := by
  obtain ⟨typ, kid, payload, sv⟩ := st
  simp only at hallow hiss hkey
  have hdes : ∀ b : Bool,
      scitoken_deserialize (some (SerializedToken.mk typ kid payload b)) allowed dp =
        .ok (tokenOf (SerializedToken.mk typ kid payload b)
          (effectiveDeserializeProfile dp (SerializedToken.mk typ kid payload b)) dp) := by
    intro b
    simp only [scitoken_deserialize]
    by_cases hall : allowed = []
    · rw [if_pos hall]
    · rw [if_neg hall]
      rcases hallow with h | ⟨i, hi, him⟩
      · exact absurd h hall
      · simp only [hi, if_pos him]
  constructor
  · intro b
    exact ⟨_, hdes b, rfl, rfl⟩
  · intro t ht
    rw [hdes false] at ht
    simp only [Except.ok.injEq] at ht
    subst ht
    simp [validator_validate, tokenOf, hiss, hkey]

/-- Witness for C1: a concrete token from issuer `https://a` with a broken
signature deserializes fine and is rejected precisely as
`SignatureInvalidError` by the validator. -/
theorem scitoken_deserialize_defers_signature_witness :
    (∃ t, scitoken_deserialize
        (some { typ := some "JWT", kid := none,
                payload := [("iss", Value.str "https://a")], sigValid := false })
        ["https://a"] .COMPAT = .ok t ∧
      t.claims = [("iss", Value.str "https://a")] ∧ t.sigValid = false) ∧
    (∀ t, scitoken_deserialize
        (some { typ := some "JWT", kid := none,
                payload := [("iss", Value.str "https://a")], sigValid := false })
        ["https://a"] .COMPAT = .ok t →
      validator_validate validator_create [mkFreshEntry "https://a" [⟨"k1", "ES256", "pub"⟩] 0]
        5 t = .error .SignatureInvalidError) := by
  have h := scitoken_deserialize_defers_signature
    { typ := some "JWT", kid := none,
      payload := [("iss", Value.str "https://a")], sigValid := true }
    ["https://a"] .COMPAT validator_create
    [mkFreshEntry "https://a" [⟨"k1", "ES256", "pub"⟩] 0] 5 "https://a"
    ⟨"k1", "ES256", "pub"⟩
    (Or.inr ⟨"https://a", by decide, by decide⟩) (by decide) (by decide)
  exact ⟨h.1 false, h.2⟩

/-- C6: deserialization with a non-empty allow-list fails with
`IssuerNotAllowedError` exactly when the token's `iss` is not on the list,
succeeds when it is, and an empty allow-list accepts every token. -/
theorem scitoken_deserialize_issuer_allowlist
    (st : SerializedToken) (allowed : List String) (dp : SciTokenProfile) (i : String)
    (hiss : lookupClaim st.payload "iss" = some (Value.str i)) :
    (allowed ≠ [] → i ∉ allowed →
      scitoken_deserialize (some st) allowed dp = .error .IssuerNotAllowedError) ∧
    (i ∈ allowed → ∃ t, scitoken_deserialize (some st) allowed dp = .ok t) ∧
    (∀ st' : SerializedToken, ∃ t, scitoken_deserialize (some st') [] dp = .ok t) := by
  refine ⟨?_, ?_, ?_⟩
  · intro hne hnm
    simp only [scitoken_deserialize]
    rw [if_neg hne]
    simp only [hiss, if_neg hnm]
  · intro him
    have hne : allowed ≠ [] := List.ne_nil_of_mem him
    have hok : scitoken_deserialize (some st) allowed dp =
        .ok (tokenOf st (effectiveDeserializeProfile dp st) dp) := by
      simp only [scitoken_deserialize]
      rw [if_neg hne]
      simp only [hiss, if_pos him]
    exact ⟨_, hok⟩
  · intro st'
    exact ⟨_, rfl⟩

/-- Witness for C6: concrete tokens with `iss = https://b` (rejected
against allow-list `[https://a]`), `iss = https://a` (accepted), and the
empty allow-list accepting `https://b`. -/
theorem scitoken_deserialize_issuer_allowlist_witness :
    scitoken_deserialize
        (some { typ := some "JWT", kid := none,
                payload := [("iss", Value.str "https://b")], sigValid := true })
        ["https://a"] .COMPAT = .error .IssuerNotAllowedError ∧
    (∃ t, scitoken_deserialize
        (some { typ := some "JWT", kid := none,
                payload := [("iss", Value.str "https://a")], sigValid := true })
        ["https://a"] .COMPAT = .ok t) ∧
    (∃ t, scitoken_deserialize
        (some { typ := some "JWT", kid := none,
                payload := [("iss", Value.str "https://b")], sigValid := true })
        [] .COMPAT = .ok t) := by
  refine ⟨?_, ?_, ?_⟩
  · exact (scitoken_deserialize_issuer_allowlist
      { typ := some "JWT", kid := none,
        payload := [("iss", Value.str "https://b")], sigValid := true }
      ["https://a"] .COMPAT "https://b" (by decide)).1 (by decide) (by decide)
  · exact (scitoken_deserialize_issuer_allowlist
      { typ := some "JWT", kid := none,
        payload := [("iss", Value.str "https://a")], sigValid := true }
      ["https://a"] .COMPAT "https://a" (by decide)).2.1 (by decide)
  · exact (scitoken_deserialize_issuer_allowlist
      { typ := some "JWT", kid := none,
        payload := [("iss", Value.str "https://b")], sigValid := true }
      [] .COMPAT "https://b" (by decide)).2.2
      { typ := some "JWT", kid := none,
        payload := [("iss", Value.str "https://b")], sigValid := true }

theorem validator_validate_ok_criticals (v : Validator) (cache : KeyCache) (extNow : Int)
    (t : SciToken) (h : validator_validate v cache extNow t = .ok ()) :
    criticalsPresent v.criticalClaims t.claims = true := by
  by_cases hcp : criticalsPresent v.criticalClaims t.claims = true
  · exact hcp
  · exfalso
    have hcpf : criticalsPresent v.criticalClaims t.claims = false := by
      simpa using hcp
    unfold validator_validate at h
    rcases hiss : lookupClaim t.claims "iss" with _ | vv
    · simp only [hiss] at h
      exact absurd h (by simp)
    · rcases vv with s | sl | n
      · simp only [hiss] at h
        rcases hk : resolveKey cache (v.timeOverride.getD extNow) s t.kid with _ | kk
        · simp only [hk] at h
          exact absurd h (by simp)
        · simp only [hk] at h
          by_cases hsv : t.sigValid = false
          · rw [if_pos hsv] at h
            exact absurd h (by simp)
          · rw [if_neg hsv] at h
            by_cases hexp : checkExp t.claims (v.timeOverride.getD extNow) = false
            · rw [if_pos hexp] at h
              exact absurd h (by simp)
            · rw [if_neg hexp] at h
              by_cases hnbf : checkNbf t.claims (v.timeOverride.getD extNow) = false
              · rw [if_pos hnbf] at h
                exact absurd h (by simp)
              · rw [if_neg hnbf] at h
                by_cases hiat : checkIat t.claims (v.timeOverride.getD extNow) = false
                · rw [if_pos hiat] at h
                  exact absurd h (by simp)
                · rw [if_neg hiat] at h
                  by_cases hrc : runChecks v.checks t.claims = false
                  · rw [if_pos hrc] at h
                    exact absurd h (by simp)
                  · rw [if_neg hrc, if_pos hcpf] at h
                    exact absurd h (by simp)
      · simp only [hiss] at h
        exact absurd h (by simp)
      · simp only [hiss] at h
        exact absurd h (by simp)

/-- C4: a validator whose critical-claim set names `c` rejects every token
whose claim set lacks `c` — whether or not a check is registered for `c` —
and accepts a token carrying `c` (here: the token with `c` set to any
value) once every remaining validation step passes: issuer resolved, key
found, signature valid, time checks pass, every registered check passes on
the extended claim set, and every critical claim is present in it. -/
theorem validator_critical_claims_enforced
    (v : Validator) (cache : KeyCache) (extNow : Int) (t : SciToken) (c : String)
    (hcrit : c ∈ v.criticalClaims) :
    (lookupClaim t.claims c = none → validator_validate v cache extNow t ≠ .ok ()) ∧
    (∀ (val : Value) (iss : String) (k : Jwk),
      lookupClaim (setClaim t.claims c val) "iss" = some (Value.str iss) →
      resolveKey cache (v.timeOverride.getD extNow) iss t.kid = some k →
      t.sigValid = true →
      checkExp (setClaim t.claims c val) (v.timeOverride.getD extNow) = true →
      checkNbf (setClaim t.claims c val) (v.timeOverride.getD extNow) = true →
      checkIat (setClaim t.claims c val) (v.timeOverride.getD extNow) = true →
      runChecks v.checks (setClaim t.claims c val) = true →
      criticalsPresent v.criticalClaims (setClaim t.claims c val) = true →
      validator_validate v cache extNow { t with claims := setClaim t.claims c val }
        = .ok ()) := by
  constructor
  · intro hmiss h
    have hcp := validator_validate_ok_criticals v cache extNow t h
    have hall := List.all_eq_true.mp hcp c hcrit
    rw [hmiss] at hall
    simp at hall
  · intro val iss k h1 h2 h3 h4 h5 h6 h7 h8
    simp [validator_validate, h1, h2, h3, h4, h5, h6, h7, h8]

/-- Witness for C4: the critical claim `grp` — a concrete token without it
is rejected, and with `grp` added (no check registered for it) the token
validates. -/
theorem validator_critical_claims_enforced_witness :
    (validator_validate (validator_add_critical_claims validator_create ["grp"])
        [mkFreshEntry "https://a" [⟨"k1", "ES256", "pub"⟩] 0] 5
        (tokenOf { typ := some "JWT", kid := none,
                   payload := [("iss", Value.str "https://a")], sigValid := true }
          .SCITOKENS_1_0 .COMPAT) ≠ .ok ()) ∧
    validator_validate (validator_add_critical_claims validator_create ["grp"])
        [mkFreshEntry "https://a" [⟨"k1", "ES256", "pub"⟩] 0] 5
        { tokenOf { typ := some "JWT", kid := none,
                    payload := [("iss", Value.str "https://a")], sigValid := true }
            .SCITOKENS_1_0 .COMPAT with
          claims := setClaim [("iss", Value.str "https://a")] "grp" (Value.str "users") }
      = .ok () := by
  have h := validator_critical_claims_enforced
    (validator_add_critical_claims validator_create ["grp"])
    [mkFreshEntry "https://a" [⟨"k1", "ES256", "pub"⟩] 0] 5
    (tokenOf { typ := some "JWT", kid := none,
               payload := [("iss", Value.str "https://a")], sigValid := true }
      .SCITOKENS_1_0 .COMPAT)
    "grp" (by decide)
  exact ⟨h.1 (by decide),
    h.2 (Value.str "users") "https://a" ⟨"k1", "ES256", "pub"⟩ (by decide) (by decide)
      (by decide) (by decide) (by decide) (by decide) (by decide) (by decide)⟩

theorem lookupClaim_addProfileMarker (P : SciTokenProfile) (cs : ClaimSet) (k : String)
    (h1 : k ≠ "ver") (h2 : k ≠ "wlcg.ver") :
    lookupClaim (addProfileMarker P cs) k = lookupClaim cs k := by
  cases P
  case SCITOKENS_2_0 => exact lookupClaim_setClaim_other cs "ver" k _ h1
  case WLCG_1_0 => exact lookupClaim_setClaim_other cs "wlcg.ver" k _ h2
  all_goals rfl

theorem reencodeScope_of_no_scope (P : SciTokenProfile) (cs : ClaimSet)
    (h : lookupClaim cs "scope" = none) : reencodeScope P cs = .ok cs := by
  cases P <;> simp [reencodeScope, h]

/-- A concrete key cache holding one key for issuer `https://a`. -/
def expiryCache : KeyCache := [mkFreshEntry "https://a" [⟨"k1", "ES256", "pub"⟩] 0]

/-- A concrete token with an explicitly set `iat` claim of 50. -/
def expiryTokIat : SciToken :=
  { claims := [("iss", Value.str "https://a"), ("iat", Value.num 50)],
    hasSigningKey := true, serializeProfile := .COMPAT, deserializeProfile := .COMPAT,
    lifetime := defaultLifetime, profile := .COMPAT, kid := none, sigValid := true }

/-- A concrete token with only an `iss` claim. -/
def expiryTokZero : SciToken :=
  { claims := [("iss", Value.str "https://a")],
    hasSigningKey := true, serializeProfile := .COMPAT, deserializeProfile := .COMPAT,
    lifetime := defaultLifetime, profile := .COMPAT, kid := none, sigValid := true }

/-- C5 counterexample, refuting the claim as stated at two explicit inputs.
First, a token with no explicitly set `exp` but an explicitly set
`iat = 50`: `set_lifetime(·, 10)` then serialization at `T0 = 100` yields
`exp = iat + L = 60`, not `T0 + L = 110`.  Second, the lifetime `L = 0`
(the claim quantifies over every lifetime): serializing at `T0 = 100`
stamps `iat = 100`, so validating at `T0 + L - 1 = 99` fails with
`NotYetValidError` (`iat > now`), not success. -/
theorem set_lifetime_expiration_counterexample :
    scitoken_serialize (scitoken_set_lifetime expiryTokIat 10) 100 =
      .ok { typ := some "JWT", kid := none,
            payload := [("iss", Value.str "https://a"), ("iat", Value.num 50),
                        ("exp", Value.num 60)],
            sigValid := true } ∧
    scitoken_deserialize
        (some { typ := some "JWT", kid := none,
                payload := [("iss", Value.str "https://a"), ("iat", Value.num 50),
                            ("exp", Value.num 60)],
                sigValid := true }) [] .COMPAT =
      .ok (tokenOf { typ := some "JWT", kid := none,
                     payload := [("iss", Value.str "https://a"), ("iat", Value.num 50),
                                 ("exp", Value.num 60)],
                     sigValid := true } .SCITOKENS_1_0 .COMPAT) ∧
    scitoken_get_expiration
        (tokenOf { typ := some "JWT", kid := none,
                   payload := [("iss", Value.str "https://a"), ("iat", Value.num 50),
                               ("exp", Value.num 60)],
                   sigValid := true } .SCITOKENS_1_0 .COMPAT) = .ok 60 ∧
    (60 : Int) ≠ 100 + 10 ∧
    scitoken_serialize (scitoken_set_lifetime expiryTokZero 0) 100 =
      .ok { typ := some "JWT", kid := none,
            payload := [("iss", Value.str "https://a"), ("iat", Value.num 100),
                        ("exp", Value.num 100)],
            sigValid := true } ∧
    scitoken_deserialize
        (some { typ := some "JWT", kid := none,
                payload := [("iss", Value.str "https://a"), ("iat", Value.num 100),
                            ("exp", Value.num 100)],
                sigValid := true }) [] .COMPAT =
      .ok (tokenOf { typ := some "JWT", kid := none,
                     payload := [("iss", Value.str "https://a"), ("iat", Value.num 100),
                                 ("exp", Value.num 100)],
                     sigValid := true } .SCITOKENS_1_0 .COMPAT) ∧
    validator_validate (validator_set_time validator_create 99) expiryCache 0
        (tokenOf { typ := some "JWT", kid := none,
                   payload := [("iss", Value.str "https://a"), ("iat", Value.num 100),
                               ("exp", Value.num 100)],
                   sigValid := true } .SCITOKENS_1_0 .COMPAT)
      = .error .NotYetValidError := by
  refine ⟨?_, ?_, ?_, by decide, ?_, ?_, ?_⟩ <;> rfl

/-! ### Enforcer (spec section 4.4) -/

/-- The Acl struct from `src/scitokens.h`: an (authz, resource) pair. -/
structure Acl where
  authz : String
  resource : String
deriving DecidableEq, Repr

/-- Modelled from the spec: Enforcer state of section 3 — expected issuer,
accepted audience set, optional time override, enforcement profile. -/
structure Enforcer where
  issuer : String
  audience : List String
  timeOverride : Option Int
  profile : SciTokenProfile
deriving DecidableEq, Repr

/-- Modelled from the spec: `enforcer_create` binds issuer and audience;
profile defaults to COMPAT. -/
def enforcer_create (issuer : String) (audience : List String) : Enforcer :=
  { issuer := issuer, audience := audience, timeOverride := none, profile := .COMPAT }

/-- Modelled from the spec: `enforcer_set_time`. -/
def enforcer_set_time (enf : Enforcer) (now : Int) : Enforcer :=
  { enf with timeOverride := some now }

/-- Modelled from the spec: `enforcer_set_validate_profile`. -/
def enforcer_set_validate_profile (enf : Enforcer) (P : SciTokenProfile) : Enforcer :=
  { enf with profile := P }

/-- Modelled from the spec: the COMPAT translation table —
`storage.read → read`, `storage.write → write`; unmapped actions pass
through unchanged. -/
def compatAction (a : String) : String :=
  if a = "storage.read" then "read"
  else if a = "storage.write" then "write"
  else a

/-- Project canonical authorizations into ACL entries, normalizing the
action names to the SciTokens 1.0 vocabulary when the enforcement profile
is COMPAT. -/
def aclsOfAuthorizations (P : SciTokenProfile) (auths : List Authorization) : List Acl :=
  if P = .COMPAT then auths.map (fun a => ⟨compatAction a.action, a.resource⟩)
  else auths.map (fun a => ⟨a.action, a.resource⟩)

/-- The audience values a token carries (`aud` as a string or string
list). -/
def tokenAudiences (cs : ClaimSet) : List String :=
  match lookupClaim cs "aud" with
  | some (Value.str a) => [a]
  | some (Value.strList as) => as
  | _ => []

/-- Modelled from the spec: audience acceptance is a logical OR — an empty
configured audience means any, else the token must carry one of the
configured values. -/
def audienceOk (enf : Enforcer) (cs : ClaimSet) : Bool :=
  enf.audience.isEmpty || (tokenAudiences cs).any (fun a => enf.audience.contains a)

/-- Modelled from the spec: `enforcer_generate_acls` — internal validation
(issuer, audience, time and signature via the resolved key), then the
validated token's scope translated through the ProfileResolver under the
token's profile, projected into the enforcement profile's output
encoding. -/
def enforcer_generate_acls (enf : Enforcer) (cache : KeyCache) (extNow : Int)
    (t : SciToken) : Except SciTokenError (List Acl) :=
  match lookupClaim t.claims "iss" with
  | some (Value.str iss) =>
    if iss ≠ enf.issuer then .error .ValidationError
    else if audienceOk enf t.claims = false then .error .AudienceMismatchError
    else
      match resolveKey cache (enf.timeOverride.getD extNow) iss t.kid with
      | none => .error .KeyNotFoundError
      | some _ =>
        if t.sigValid = false then .error .SignatureInvalidError
        else if checkExp t.claims (enf.timeOverride.getD extNow) = false then
          .error .ExpiredTokenError
        else if checkNbf t.claims (enf.timeOverride.getD extNow) = false then
          .error .NotYetValidError
        else if checkIat t.claims (enf.timeOverride.getD extNow) = false then
          .error .NotYetValidError
        else
          match lookupClaim t.claims "scope" with
          | none => .ok []
          | some (Value.str s) =>
            match scopeToAuthorizations t.profile s with
            | some auths => .ok (aclsOfAuthorizations enf.profile auths)
            | none => .error .MalformedScopeError
          | some _ => .error .ClaimTypeError
  | _ => .error .ClaimMissingError

/-- Path segments of a resource path. -/
def pathSegs (s : String) : List (List Char) := splitSep '/' s.data

/-- Path-segment-boundary resource matching: a granted `/foo` authorizes
`/foo` and `/foo/bar` but not `/foobar`. -/
def resourceAllows (granted requested : String) : Bool :=
  (pathSegs granted).isPrefixOf (pathSegs requested)

/-- One granted ACL satisfies a requested ACL when the authz names agree
and the granted resource allows the requested one. -/
def aclSatisfies (granted requested : Acl) : Bool :=
  (granted.authz == requested.authz) && resourceAllows granted.resource requested.resource

/-- Modelled from the spec: `enforcer_test` — equivalent to generating the
ACLs and testing membership, short-circuiting on the first match
(`List.any`), with the same COMPAT normalization as
`enforcer_generate_acls`. -/
def enforcer_test (enf : Enforcer) (cache : KeyCache) (extNow : Int) (t : SciToken)
    (req : Acl) : Except SciTokenError Bool :=
  (enforcer_generate_acls enf cache extNow t).map
    (fun acls => acls.any (fun g => aclSatisfies g req))

/-- C2 counterexample: the claim quantifies over every token whose
validated scope CONTAINS the entry `storage.read:/data`.  This concrete
WLCG token's scope contains that entry (and also
`storage.read:/dataset`), yet `enforcer_test` for `{read, /dataset}` under
a COMPAT enforcer returns allowed, not denied. -/
theorem enforcer_test_compat_counterexample :
    ((splitSep ' ' ("storage.read:/data storage.read:/dataset").data).contains
        ("storage.read:/data").data) = true ∧
    (enforcer_create "https://a" []).profile = .COMPAT ∧
    enforcer_test (enforcer_create "https://a" []) expiryCache 50
        { claims := [("iss", Value.str "https://a"),
                     ("scope", Value.str "storage.read:/data storage.read:/dataset"),
                     ("exp", Value.num 200)],
          hasSigningKey := false, serializeProfile := .COMPAT,
          deserializeProfile := .COMPAT, lifetime := defaultLifetime,
          profile := .WLCG_1_0, kid := none, sigValid := true }
        ⟨"read", "/dataset"⟩ = .ok true := by
  refine ⟨by decide, rfl, rfl⟩

/-- C2 (amended): for every COMPAT enforcer and every WLCG token whose
validated scope is exactly the entry `storage.read:/data` (internal
validation passing: matching issuer, audience accepted, key resolved,
signature and time checks good), `generate_acls` yields the normalized
`{read, /data}` and `enforcer_test` allows `{read, /data}` and
`{read, /data/subdir}` but denies `{read, /dataset}` — the same COMPAT
normalization as `generate_acls`, with path-segment-boundary prefix
matching of resources. -/
theorem enforcer_test_compat (enf : Enforcer) (cache : KeyCache) (extNow : Int)
    (t : SciToken) (iss : String) (k : Jwk)
    (hprof : enf.profile = .COMPAT)
    (htprof : t.profile = .WLCG_1_0)
    (hscope : lookupClaim t.claims "scope" = some (Value.str "storage.read:/data"))
    (hiss : lookupClaim t.claims "iss" = some (Value.str iss))
    (hissm : iss = enf.issuer)
    (haud : audienceOk enf t.claims = true)
    (hkey : resolveKey cache (enf.timeOverride.getD extNow) enf.issuer t.kid = some k)
    (hsig : t.sigValid = true)
    (hexp : checkExp t.claims (enf.timeOverride.getD extNow) = true)
    (hnbf : checkNbf t.claims (enf.timeOverride.getD extNow) = true)
    (hiat : checkIat t.claims (enf.timeOverride.getD extNow) = true) :
    enforcer_generate_acls enf cache extNow t = .ok [⟨"read", "/data"⟩] ∧
    enforcer_test enf cache extNow t ⟨"read", "/data"⟩ = .ok true ∧
    enforcer_test enf cache extNow t ⟨"read", "/data/subdir"⟩ = .ok true ∧
    enforcer_test enf cache extNow t ⟨"read", "/dataset"⟩ = .ok false := by
  subst hissm
  have hparse : scopeToAuthorizations SciTokenProfile.WLCG_1_0 "storage.read:/data" =
      some [⟨"storage.read", "/data"⟩] := by decide
  have hgen : enforcer_generate_acls enf cache extNow t = .ok [⟨"read", "/data"⟩] := by
    unfold enforcer_generate_acls
    simp [hiss, haud, hkey, hsig, hexp, hnbf, hiat, hscope, htprof, hparse, hprof,
          aclsOfAuthorizations, compatAction]
  refine ⟨hgen, ?_, ?_, ?_⟩ <;> (simp only [enforcer_test, hgen]; rfl)

/-- Witness for the amended C2 theorem at fully concrete inputs. -/
theorem enforcer_test_compat_witness :
    enforcer_generate_acls (enforcer_create "https://a" []) expiryCache 50
        { claims := [("iss", Value.str "https://a"),
                     ("scope", Value.str "storage.read:/data")],
          hasSigningKey := false, serializeProfile := .COMPAT,
          deserializeProfile := .COMPAT, lifetime := defaultLifetime,
          profile := .WLCG_1_0, kid := none, sigValid := true }
      = .ok [⟨"read", "/data"⟩] ∧
    enforcer_test (enforcer_create "https://a" []) expiryCache 50
        { claims := [("iss", Value.str "https://a"),
                     ("scope", Value.str "storage.read:/data")],
          hasSigningKey := false, serializeProfile := .COMPAT,
          deserializeProfile := .COMPAT, lifetime := defaultLifetime,
          profile := .WLCG_1_0, kid := none, sigValid := true }
        ⟨"read", "/data"⟩ = .ok true ∧
    enforcer_test (enforcer_create "https://a" []) expiryCache 50
        { claims := [("iss", Value.str "https://a"),
                     ("scope", Value.str "storage.read:/data")],
          hasSigningKey := false, serializeProfile := .COMPAT,
          deserializeProfile := .COMPAT, lifetime := defaultLifetime,
          profile := .WLCG_1_0, kid := none, sigValid := true }
        ⟨"read", "/data/subdir"⟩ = .ok true ∧
    enforcer_test (enforcer_create "https://a" []) expiryCache 50
        { claims := [("iss", Value.str "https://a"),
                     ("scope", Value.str "storage.read:/data")],
          hasSigningKey := false, serializeProfile := .COMPAT,
          deserializeProfile := .COMPAT, lifetime := defaultLifetime,
          profile := .WLCG_1_0, kid := none, sigValid := true }
        ⟨"read", "/dataset"⟩ = .ok false :=
  enforcer_test_compat (enforcer_create "https://a" []) expiryCache 50
    { claims := [("iss", Value.str "https://a"),
                 ("scope", Value.str "storage.read:/data")],
      hasSigningKey := false, serializeProfile := .COMPAT,
      deserializeProfile := .COMPAT, lifetime := defaultLifetime,
      profile := .WLCG_1_0, kid := none, sigValid := true }
    "https://a" ⟨"k1", "ES256", "pub"⟩ rfl rfl (by decide) (by decide) rfl (by decide)
    (by decide) (by decide) (by decide) (by decide) (by decide)

/-! ### Round trip (spec section 8) -/

/-- Marker-claim consistency: a claim set carries exactly the profile
marker claims that serialization under that profile stamps (the version
claims of SciTokens 2.0 and WLCG 1.0; none for the others), so the claim
set is representable in the profile and the COMPAT detection heuristics
recover it. -/
def markerConsistent : SciTokenProfile → ClaimSet → Prop
  | .SCITOKENS_2_0, cs => lookupClaim cs "ver" = some (Value.str "scitokens:2.0")
  | .WLCG_1_0, cs =>
    lookupClaim cs "ver" = none ∧ lookupClaim cs "wlcg.ver" = some (Value.str "1.0")
  | _, cs => lookupClaim cs "ver" = none ∧ lookupClaim cs "wlcg.ver" = none

/-- The scope claim, when present, is representable in the profile: it is a
string the ProfileResolver can translate (AT-JWT performs no translation,
so anything is representable there). -/
def scopeRepresentable (P : SciTokenProfile) (cs : ClaimSet) : Prop :=
  match lookupClaim cs "scope" with
  | none => True
  | some (Value.str s) => P = .AT_JWT ∨ (scopeToAuthorizations P s).isSome
  | some _ => P = .AT_JWT

/-- The canonical meaning of a claim set's scope claim under a profile:
`none` when no scope claim, else the resolver's verdict on its string. -/
def scopeDenotation (P : SciTokenProfile) (cs : ClaimSet) :
    Option (Option (List Authorization)) :=
  match lookupClaim cs "scope" with
  | none => none
  | some (Value.str s) => some (scopeToAuthorizations P s)
  | some _ => some none

theorem effectiveSerializeProfile_ne_compat (P : SciTokenProfile) :
    effectiveSerializeProfile P ≠ .COMPAT := by
  cases P <;> simp [effectiveSerializeProfile]

theorem addProfileMarker_eq_self (P : SciTokenProfile) (cs : ClaimSet)
    (h : markerConsistent P cs) : addProfileMarker P cs = cs := by
  cases P
  case SCITOKENS_2_0 => exact setClaim_eq_self _ _ _ h
  case WLCG_1_0 => exact setClaim_eq_self _ _ _ h.2
  all_goals rfl

theorem markerConsistent_setClaim_scope (P : SciTokenProfile) (cs : ClaimSet) (v : Value)
    (h : markerConsistent P cs) : markerConsistent P (setClaim cs "scope" v) := by
  cases P
  case SCITOKENS_2_0 =>
    simp only [markerConsistent] at h ⊢
    rw [lookupClaim_setClaim_other _ _ _ _ (by decide)]
    exact h
  all_goals {
    simp only [markerConsistent] at h ⊢
    exact ⟨by rw [lookupClaim_setClaim_other _ _ _ _ (by decide)]; exact h.1,
           by rw [lookupClaim_setClaim_other _ _ _ _ (by decide)]; exact h.2⟩
  }

theorem detectProfile_marker (P : SciTokenProfile) (st : SerializedToken)
    (hP : P ≠ .COMPAT) (hm : markerConsistent P st.payload)
    (htyp : st.typ = typHeader P) : detectProfile st = P := by
  have hja : (some "JWT" : Option String) ≠ some "at+jwt" := by decide
  cases P
  case COMPAT => exact absurd rfl hP
  case SCITOKENS_1_0 =>
    simp only [markerConsistent] at hm
    simp [detectProfile, hm.1, hm.2, htyp, typHeader, hja]
  case SCITOKENS_2_0 =>
    simp only [markerConsistent] at hm
    simp [detectProfile, hm]
  case WLCG_1_0 =>
    simp only [markerConsistent] at hm
    simp [detectProfile, hm.1, hm.2]
  case AT_JWT =>
    simp only [markerConsistent] at hm
    simp [detectProfile, hm.1, hm.2, htyp, typHeader]

/-- C7: for every signed token whose claim set carries only claims
representable in serialization profile P — explicit `iat` and `exp`,
consistent profile marker claims, a resolver-translatable scope — the
string produced by `scitoken_serialize` deserializes to a token with the
same determined profile, a claim set equal to the original on every
non-scope claim, and a scope claim with the same canonical meaning: the
profile-specific re-encoding round-trips through the ProfileResolver. -/
theorem serialize_deserialize_roundtrip (t : SciToken) (T0 ia ex : Int) (vIss : Value)
    (hkeyb : t.hasSigningKey = true)
    (hiss : lookupClaim t.claims "iss" = some vIss)
    (hiat : lookupClaim t.claims "iat" = some (Value.num ia))
    (hexp : lookupClaim t.claims "exp" = some (Value.num ex))
    (hmark : markerConsistent (effectiveSerializeProfile t.serializeProfile) t.claims)
    (hrep : scopeRepresentable (effectiveSerializeProfile t.serializeProfile) t.claims) :
    ∃ st t',
      scitoken_serialize t T0 = .ok st ∧
      scitoken_deserialize (some st) [] .COMPAT = .ok t' ∧
      t'.profile = effectiveSerializeProfile t.serializeProfile ∧
      (∀ c, c ≠ "scope" → lookupClaim t'.claims c = lookupClaim t.claims c) ∧
      scopeDenotation (effectiveSerializeProfile t.serializeProfile) t'.claims =
        scopeDenotation (effectiveSerializeProfile t.serializeProfile) t.claims := by
  have hPne : effectiveSerializeProfile t.serializeProfile ≠ .COMPAT :=
    effectiveSerializeProfile_ne_compat t.serializeProfile
  have hcs1 : setClaim (setClaim t.claims "iat" (Value.num ia)) "exp" (Value.num ex)
      = t.claims := by
    rw [setClaim_eq_self _ _ _ hiat, setClaim_eq_self _ _ _ hexp]
  have hcs2 : addProfileMarker (effectiveSerializeProfile t.serializeProfile) t.claims
      = t.claims := addProfileMarker_eq_self _ _ hmark
  have hser : ∀ payload,
      reencodeScope (effectiveSerializeProfile t.serializeProfile) t.claims = .ok payload →
      scitoken_serialize t T0 =
        .ok { typ := typHeader (effectiveSerializeProfile t.serializeProfile), kid := none,
              payload := payload, sigValid := true } := by
    intro payload hre
    unfold scitoken_serialize
    rw [if_neg (by simp [hkeyb]), if_neg (by simp [hiss])]
    simp only [hiat, hexp, hcs1, hcs2, hre]
  have main : ∀ payload,
      reencodeScope (effectiveSerializeProfile t.serializeProfile) t.claims = .ok payload →
      markerConsistent (effectiveSerializeProfile t.serializeProfile) payload →
      (∀ c, c ≠ "scope" → lookupClaim payload c = lookupClaim t.claims c) →
      scopeDenotation (effectiveSerializeProfile t.serializeProfile) payload =
        scopeDenotation (effectiveSerializeProfile t.serializeProfile) t.claims →
      ∃ st t',
        scitoken_serialize t T0 = .ok st ∧
        scitoken_deserialize (some st) [] .COMPAT = .ok t' ∧
        t'.profile = effectiveSerializeProfile t.serializeProfile ∧
        (∀ c, c ≠ "scope" → lookupClaim t'.claims c = lookupClaim t.claims c) ∧
        scopeDenotation (effectiveSerializeProfile t.serializeProfile) t'.claims =
          scopeDenotation (effectiveSerializeProfile t.serializeProfile) t.claims := by
    intro payload hre hm' hother hdeno
    refine ⟨_, _, hser payload hre, rfl, ?_, ?_, ?_⟩
    · show effectiveDeserializeProfile .COMPAT
        { typ := typHeader (effectiveSerializeProfile t.serializeProfile), kid := none,
          payload := payload, sigValid := true } = _
      rw [effectiveDeserializeProfile, if_pos rfl]
      exact detectProfile_marker _ _ hPne hm' rfl
    · exact hother
    · exact hdeno
  rcases hsc : lookupClaim t.claims "scope" with _ | v
  · exact main t.claims (reencodeScope_of_no_scope _ _ hsc) hmark (fun c hc => rfl) rfl
  · rcases v with s | sl | n
    · by_cases hPA : effectiveSerializeProfile t.serializeProfile = .AT_JWT
      · have hre : reencodeScope (effectiveSerializeProfile t.serializeProfile) t.claims
            = .ok t.claims := by rw [reencodeScope, if_pos hPA]
        exact main t.claims hre hmark (fun c hc => rfl) rfl
      · have hrep' : (scopeToAuthorizations (effectiveSerializeProfile t.serializeProfile) s).isSome := by
          unfold scopeRepresentable at hrep
          rw [hsc] at hrep
          rcases hrep with h | h
          · exact absurd h hPA
          · exact h
        obtain ⟨auths, hauths⟩ := Option.isSome_iff_exists.mp hrep'
        have hre : reencodeScope (effectiveSerializeProfile t.serializeProfile) t.claims
            = .ok (setClaim t.claims "scope"
                (Value.str (authorizationsToScope
                  (effectiveSerializeProfile t.serializeProfile) auths))) := by
          rw [reencodeScope, if_neg hPA]
          simp only [hsc, hauths]
        refine main _ hre (markerConsistent_setClaim_scope _ _ _ hmark)
          (fun c hc => lookupClaim_setClaim_other _ _ _ _ hc) ?_
        unfold scopeDenotation
        rw [lookupClaim_setClaim_self, hsc]
        show some (scopeToAuthorizations (effectiveSerializeProfile t.serializeProfile)
            (authorizationsToScope (effectiveSerializeProfile t.serializeProfile) auths)) =
          some (scopeToAuthorizations (effectiveSerializeProfile t.serializeProfile) s)
        rw [scope_roundtrip _ s auths hauths, hauths]
    · have hPA : effectiveSerializeProfile t.serializeProfile = .AT_JWT := by
        unfold scopeRepresentable at hrep
        rwa [hsc] at hrep
      have hre : reencodeScope (effectiveSerializeProfile t.serializeProfile) t.claims
          = .ok t.claims := by rw [reencodeScope, if_pos hPA]
      exact main t.claims hre hmark (fun c hc => rfl) rfl
    · have hPA : effectiveSerializeProfile t.serializeProfile = .AT_JWT := by
        unfold scopeRepresentable at hrep
        rwa [hsc] at hrep
      have hre : reencodeScope (effectiveSerializeProfile t.serializeProfile) t.claims
          = .ok t.claims := by rw [reencodeScope, if_pos hPA]
      exact main t.claims hre hmark (fun c hc => rfl) rfl

/-- A concrete WLCG 1.0 token whose claims are all representable in the
WLCG profile. -/
def rtTok : SciToken :=
  { claims := [("iss", Value.str "https://a"), ("iat", Value.num 5),
               ("exp", Value.num 50), ("wlcg.ver", Value.str "1.0"),
               ("scope", Value.str "storage.read:/data")],
    hasSigningKey := true, serializeProfile := .WLCG_1_0,
    deserializeProfile := .COMPAT, lifetime := defaultLifetime,
    profile := .COMPAT, kid := none, sigValid := true }

/-- Witness for C7 at a concrete WLCG token carrying a scope claim. -/
theorem serialize_deserialize_roundtrip_witness :
    ∃ st t',
      scitoken_serialize rtTok 7 = .ok st ∧
      scitoken_deserialize (some st) [] .COMPAT = .ok t' ∧
      t'.profile = effectiveSerializeProfile rtTok.serializeProfile ∧
      (∀ c, c ≠ "scope" → lookupClaim t'.claims c = lookupClaim rtTok.claims c) ∧
      scopeDenotation (effectiveSerializeProfile rtTok.serializeProfile) t'.claims =
        scopeDenotation (effectiveSerializeProfile rtTok.serializeProfile) rtTok.claims :=
  serialize_deserialize_roundtrip rtTok 7 5 50 (Value.str "https://a")
    rfl rfl rfl rfl ⟨rfl, rfl⟩ (Or.inr rfl)

/-! ### String-list claims (header contract of
`scitoken_get_claim_string_list` / `scitoken_free_string_list`) -/

/-- The C representation of the returned string list: an array whose cells
are string pointers (`some s`) terminated by one null pointer (`none`). -/
def cStringList (xs : List String) : List (Option String) := xs.map some ++ [none]

/-- Modelled from the spec: `scitoken_get_claim_string_list` — parses the
named claim as a list of strings; if the value is not a list of strings or
the claim is absent it reports `ClaimTypeError` / `ClaimMissingError`,
otherwise it returns the null-terminated array of the list's strings. -/
def scitoken_get_claim_string_list (t : SciToken) (key : String) :
    Except SciTokenError (List (Option String)) :=
  match lookupClaim t.claims key with
  | none => .error .ClaimMissingError
  | some (Value.strList xs) => .ok (cStringList xs)
  | some _ => .error .ClaimTypeError

/-- Modelled from the spec: `scitoken_free_string_list` releases the whole
array returned by `scitoken_get_claim_string_list` — every cell, strings
and terminator alike — as one unit; the model returns how many cells are
released: always all of them. -/
def scitoken_free_string_list (value : List (Option String)) : Nat := value.length

theorem cStringList_getD (xs : List String) (i : Nat) :
    ((cStringList xs).getD i (some "") = none) ↔ i = xs.length := by
  induction xs generalizing i with
  | nil =>
    cases i with
    | zero => simp [cStringList]
    | succ n => simp [cStringList, List.getD]
  | cons x xs ih =>
    cases i with
    | zero => simp [cStringList]
    | succ n =>
      have hstep : (cStringList (x :: xs)).getD (n + 1) (some "") =
          (cStringList xs).getD n (some "") := rfl
      rw [hstep, ih]
      simp

/-- C9: whenever `scitoken_get_claim_string_list` succeeds, the output is
the claim's strings followed by exactly one null cell in the last position
— the null pointer is at index `xs.length` and nowhere else, so a caller
can find the end of the list with no separate length output — and
`scitoken_free_string_list` releases the entire array (all `xs.length + 1`
cells) as one unit. -/
theorem get_claim_string_list_null_terminated (t : SciToken) (key : String)
    (out : List (Option String))
    (h : scitoken_get_claim_string_list t key = .ok out) :
    ∃ xs, lookupClaim t.claims key = some (Value.strList xs) ∧
      out = xs.map some ++ [none] ∧
      out.getLast? = some none ∧
      (∀ i : Nat, (out.getD i (some "") = none) ↔ i = xs.length) ∧
      scitoken_free_string_list out = xs.length + 1 := by
  unfold scitoken_get_claim_string_list at h
  rcases hl : lookupClaim t.claims key with _ | v
  · rw [hl] at h; simp at h
  · rcases v with s | xs | n
    · rw [hl] at h; simp at h
    · rw [hl] at h
      simp only [Except.ok.injEq] at h
      subst h
      refine ⟨xs, rfl, rfl, ?_, ?_, ?_⟩
      · show (xs.map some ++ [none]).getLast? = some none
        rw [List.getLast?_append]
        rfl
      · exact cStringList_getD xs
      · show (xs.map some ++ [none]).length = xs.length + 1
        simp
    · rw [hl] at h; simp at h

/-- Witness for C9: a concrete token with an `aud` string-list claim. -/
theorem get_claim_string_list_null_terminated_witness :
    ∃ xs, lookupClaim
        [("aud", Value.strList ["https://rs1", "https://rs2"])] "aud"
        = some (Value.strList xs) ∧
      [some "https://rs1", some "https://rs2", none] = xs.map some ++ [none] ∧
      [some "https://rs1", some "https://rs2", (none : Option String)].getLast?
        = some none ∧
      (∀ i : Nat, ([some "https://rs1", some "https://rs2",
          (none : Option String)].getD i (some "") = none) ↔ i = xs.length) ∧
      scitoken_free_string_list [some "https://rs1", some "https://rs2", none]
        = xs.length + 1 :=
  get_claim_string_list_null_terminated
    { claims := [("aud", Value.strList ["https://rs1", "https://rs2"])],
      hasSigningKey := false, serializeProfile := .COMPAT,
      deserializeProfile := .COMPAT, lifetime := defaultLifetime,
      profile := .COMPAT, kid := none, sigValid := true }
    "aud" [some "https://rs1", some "https://rs2", none] rfl

/-! ### Expiry monotonicity (spec section 8) -/

theorem reencodeScope_lookup_other (P : SciTokenProfile) (cs payload : ClaimSet)
    (k : String) (hk : k ≠ "scope")
    (h : reencodeScope P cs = .ok payload) :
    lookupClaim payload k = lookupClaim cs k := by
  unfold reencodeScope at h
  by_cases hPA : P = .AT_JWT
  · rw [if_pos hPA] at h
    simp only [Except.ok.injEq] at h
    rw [← h]
  · rw [if_neg hPA] at h
    rcases hsc : lookupClaim cs "scope" with _ | v
    · simp only [hsc, Except.ok.injEq] at h
      rw [← h]
    · rcases v with s | sl | n
      · simp only [hsc] at h
        rcases hpa : scopeToAuthorizations P s with _ | auths
        · rw [hpa] at h
          simp at h
        · rw [hpa] at h
          simp only [Except.ok.injEq] at h
          rw [← h, lookupClaim_setClaim_other _ _ _ _ hk]
      · simp only [hsc] at h
        exact absurd h (by simp)
      · simp only [hsc] at h
        exact absurd h (by simp)

theorem reencodeScope_ok_of_representable (P : SciTokenProfile) (cs : ClaimSet)
    (h : scopeRepresentable P cs) : ∃ payload, reencodeScope P cs = .ok payload := by
  by_cases hPA : P = .AT_JWT
  · exact ⟨cs, by unfold reencodeScope; rw [if_pos hPA]⟩
  · unfold scopeRepresentable at h
    rcases hsc : lookupClaim cs "scope" with _ | v
    · exact ⟨cs, by unfold reencodeScope; rw [if_neg hPA]; simp only [hsc]⟩
    · rcases v with s | sl | n
      · simp only [hsc] at h
        rcases h with h | h
        · exact absurd h hPA
        · obtain ⟨auths, hauths⟩ := Option.isSome_iff_exists.mp h
          exact ⟨setClaim cs "scope" (Value.str (authorizationsToScope P auths)),
            by unfold reencodeScope; rw [if_neg hPA]; simp only [hsc, hauths]⟩
      · simp only [hsc] at h
        exact absurd h hPA
      · simp only [hsc] at h
        exact absurd h hPA

theorem scopeRepresentable_of_lookup_eq (P : SciTokenProfile) (cs cs' : ClaimSet)
    (h : lookupClaim cs' "scope" = lookupClaim cs "scope")
    (hr : scopeRepresentable P cs) : scopeRepresentable P cs' := by
  unfold scopeRepresentable at hr ⊢
  rw [h]
  exact hr

theorem scitoken_serialize_no_exp_iat (t : SciToken) (T0 : Int) (vIss : Value)
    (payload : ClaimSet)
    (hkey : t.hasSigningKey = true)
    (hiss : lookupClaim t.claims "iss" = some vIss)
    (hexp : lookupClaim t.claims "exp" = none)
    (hiat : lookupClaim t.claims "iat" = none)
    (hre : reencodeScope (effectiveSerializeProfile t.serializeProfile)
        (addProfileMarker (effectiveSerializeProfile t.serializeProfile)
          (setClaim (setClaim t.claims "iat" (Value.num T0)) "exp"
            (Value.num (T0 + t.lifetime)))) = .ok payload) :
    scitoken_serialize t T0 = .ok
      { typ := typHeader (effectiveSerializeProfile t.serializeProfile), kid := none,
        payload := payload, sigValid := true } := by
  unfold scitoken_serialize
  rw [if_neg (by simp [hkey]), if_neg (by simp [hiss])]
  simp only [hexp, hiat, hre]

/-- C5 (amended): for every serializable token — signing key bound, `iss`
present, any scope claim representable in the serialization profile — with
no explicitly set `exp` claim, no explicitly set `iat` claim and no `nbf`
claim, and every lifetime `L ≥ 1`, after `scitoken_set_lifetime` and
serialization at `T0` the deserialized token's `scitoken_get_expiration` is
`T0 + L`; a validator with its time set to `T0 + L + 1` (leeway 0 in this
model) rejects it with `ExpiredTokenError`, and one with time `T0 + L - 1`
accepts it, all other checks passing (key resolvable, fresh validator). -/
theorem set_lifetime_expiration_monotonicity
    (t0 : SciToken) (L T0 extNow : Int) (issuer : String)
    (cache : KeyCache) (kA kB : Jwk)
    (hkey0 : t0.hasSigningKey = true)
    (hiss : lookupClaim t0.claims "iss" = some (Value.str issuer))
    (hexp : lookupClaim t0.claims "exp" = none)
    (hiat : lookupClaim t0.claims "iat" = none)
    (hnbf : lookupClaim t0.claims "nbf" = none)
    (hrep : scopeRepresentable (effectiveSerializeProfile t0.serializeProfile) t0.claims)
    (hL : 1 ≤ L)
    (hkA : resolveKey cache (T0 + L + 1) issuer none = some kA)
    (hkB : resolveKey cache (T0 + L - 1) issuer none = some kB) :
    ∃ st t',
      scitoken_serialize (scitoken_set_lifetime t0 L) T0 = .ok st ∧
      scitoken_deserialize (some st) [] .COMPAT = .ok t' ∧
      scitoken_get_expiration t' = .ok (T0 + L) ∧
      validator_validate (validator_set_time validator_create (T0 + L + 1)) cache extNow t'
        = .error .ExpiredTokenError ∧
      validator_validate (validator_set_time validator_create (T0 + L - 1)) cache extNow t'
        = .ok () := by
  have hsc2 : lookupClaim (addProfileMarker (effectiveSerializeProfile t0.serializeProfile)
      (setClaim (setClaim t0.claims "iat" (Value.num T0)) "exp" (Value.num (T0 + L))))
      "scope" = lookupClaim t0.claims "scope" := by
    rw [lookupClaim_addProfileMarker _ _ _ (by decide) (by decide),
        lookupClaim_setClaim_other _ _ _ _ (by decide),
        lookupClaim_setClaim_other _ _ _ _ (by decide)]
  obtain ⟨payload, hre⟩ := reencodeScope_ok_of_representable _ _
    (scopeRepresentable_of_lookup_eq _ _ _ hsc2 hrep)
  have hser : scitoken_serialize (scitoken_set_lifetime t0 L) T0 = .ok
      { typ := typHeader (effectiveSerializeProfile t0.serializeProfile), kid := none,
        payload := payload, sigValid := true } :=
    scitoken_serialize_no_exp_iat (scitoken_set_lifetime t0 L) T0 (Value.str issuer)
      payload hkey0 hiss hexp hiat hre
  have hpto : ∀ k, k ≠ "scope" →
      lookupClaim payload k =
        lookupClaim (addProfileMarker (effectiveSerializeProfile t0.serializeProfile)
          (setClaim (setClaim t0.claims "iat" (Value.num T0)) "exp"
            (Value.num (T0 + L)))) k :=
    fun k hk => reencodeScope_lookup_other _ _ _ k hk hre
  have hpexp : lookupClaim payload "exp" = some (Value.num (T0 + L)) := by
    rw [hpto "exp" (by decide),
        lookupClaim_addProfileMarker _ _ _ (by decide) (by decide),
        lookupClaim_setClaim_self]
  have hpiat : lookupClaim payload "iat" = some (Value.num T0) := by
    rw [hpto "iat" (by decide),
        lookupClaim_addProfileMarker _ _ _ (by decide) (by decide),
        lookupClaim_setClaim_other _ _ _ _ (by decide), lookupClaim_setClaim_self]
  have hpnbf : lookupClaim payload "nbf" = none := by
    rw [hpto "nbf" (by decide),
        lookupClaim_addProfileMarker _ _ _ (by decide) (by decide),
        lookupClaim_setClaim_other _ _ _ _ (by decide),
        lookupClaim_setClaim_other _ _ _ _ (by decide), hnbf]
  have hpiss : lookupClaim payload "iss" = some (Value.str issuer) := by
    rw [hpto "iss" (by decide),
        lookupClaim_addProfileMarker _ _ _ (by decide) (by decide),
        lookupClaim_setClaim_other _ _ _ _ (by decide),
        lookupClaim_setClaim_other _ _ _ _ (by decide), hiss]
  refine ⟨_, _, hser, rfl, ?_, ?_, ?_⟩
  · simp [scitoken_get_expiration, tokenOf, effectiveDeserializeProfile, hpexp]
  · have harith : ¬((T0 + L + 1 : Int) < T0 + L) := by omega
    simp [validator_validate, tokenOf, effectiveDeserializeProfile,
          validator_set_time, validator_create, hpiss, hkA, checkExp, hpexp, harith]
  · have harith1 : (T0 + L - 1 : Int) < T0 + L := by omega
    have harith2 : (T0 : Int) ≤ T0 + L - 1 := by omega
    simp [validator_validate, tokenOf, effectiveDeserializeProfile,
          validator_set_time, validator_create, hpiss, hkB, checkExp, checkNbf, checkIat,
          runChecks, criticalsPresent, hpexp, hpiat, hpnbf, harith1, harith2]

/-- A concrete serializable WLCG token that carries a scope claim. -/
def expiryTokScope : SciToken :=
  { claims := [("iss", Value.str "https://a"),
               ("scope", Value.str "storage.read:/data")],
    hasSigningKey := true, serializeProfile := .WLCG_1_0, deserializeProfile := .COMPAT,
    lifetime := defaultLifetime, profile := .COMPAT, kid := none, sigValid := true }

/-- Witness for the amended C5 theorem at concrete inputs: a token carrying
a representable scope claim, lifetime 5, serialized at `T0 = 100`. -/
theorem set_lifetime_expiration_monotonicity_witness :
    ∃ st t',
      scitoken_serialize (scitoken_set_lifetime expiryTokScope 5) 100 = .ok st ∧
      scitoken_deserialize (some st) [] .COMPAT = .ok t' ∧
      scitoken_get_expiration t' = .ok (100 + 5) ∧
      validator_validate (validator_set_time validator_create (100 + 5 + 1)) expiryCache 0 t'
        = .error .ExpiredTokenError ∧
      validator_validate (validator_set_time validator_create (100 + 5 - 1)) expiryCache 0 t'
        = .ok () :=
  set_lifetime_expiration_monotonicity expiryTokScope 5 100 0 "https://a" expiryCache
    ⟨"k1", "ES256", "pub"⟩ ⟨"k1", "ES256", "pub"⟩ (by decide) (by decide) (by decide)
    (by decide) (by decide) (Or.inr (by decide)) (by decide) (by decide) (by decide)
